import Mathlib

/-!
Verification of the face-recognition attendance system.

This file gives a shallow embedding of the core logic of the repository
(`app.py`, `models.py`, `face_cache.py`, `face_engine.py`, `config.py`)
and proves or refutes the stated properties of that logic.

Modelling conventions:
* Python floats are modelled as exact rationals (`ℚ`); real-valued
  trigonometry (the haversine distance) is modelled over `ℝ`.
* Python `datetime.time` values are modelled as hour/minute pairs,
  `datetime` timestamps used only for ordering (`last_accessed`,
  `created_at`) as natural-number logical clocks.
* The SQL store of `Attendance` rows is a map keyed by
  `(employee_id, tanggal)`, which encodes the `unique_daily_attendance`
  constraint of `models.py`.
* Python dicts are modelled as association lists in insertion order
  (Python 3 dicts preserve insertion order; overwriting a key keeps its
  position).
* The MD5 integrity hash of `face_cache.py` is modelled as an explicit
  parameter `hash : List ℚ → H`: the verified properties depend only on
  the hash being a deterministic function of the encoding.
* Square roots are irrational in general, so the L2 norm used by the
  normalisation code is passed as a certified parameter `n` together
  with hypotheses `0 < n` and `n * n = sumSq v` where the code computes
  `np.linalg.norm`.
-/

/-- A time of day, hour and minute, as used by `get_attendance_status`
in `app.py` (`check_in_time.hour`, `check_in_time.minute`). -/
structure TimeHM where
  hour : Nat
  minute : Nat
deriving DecidableEq

/-- `get_attendance_status` from `app.py` (lines 99-111): `ALPA` for a
missing check-in, otherwise compare minutes since midnight with shift
start plus tolerance. -/
def get_attendance_status (check_in_time : Option TimeHM)
    (shift_start_time : TimeHM) (tolerance_minutes : Nat) : String :=
  match check_in_time with
  | none => "ALPA"
  | some t =>
    if t.hour * 60 + t.minute ≤
        shift_start_time.hour * 60 + shift_start_time.minute + tolerance_minutes then
      "HADIR"
    else
      "TERLAMBAT"

/-- One row of the `attendances` table from `models.py` (fields used by
the `absen` route; `id` and `dibuat` are bookkeeping omitted here). -/
structure AttendanceRec where
  employee_id : Nat
  tanggal : Nat
  check_in : Option TimeHM
  check_out : Option TimeHM
  status : String
  latitude : Option ℚ
  longitude : Option ℚ
  liveness_ok : Bool
  similarity : ℚ
deriving DecidableEq

/-- The attendance table keyed by `(employee_id, tanggal)`; the key
encodes the `unique_daily_attendance` constraint of `models.py`. -/
def Store : Type := Nat → Nat → Option AttendanceRec

/-- The company geolocation from `config.py`
(`COMPANY_LATITUDE`, `COMPANY_LONGITUDE`). -/
structure CompanyConfig where
  company_latitude : ℚ
  company_longitude : ℚ

/-- The data reaching the database section of the `absen` route in
`app.py`: the engine result (`liveness_ok`, `employee_id`,
`similarity`), the parsed form coordinates, today's date index and the
current wall-clock time. -/
structure AbsenEvent where
  liveness_ok : Bool
  employee_id : Option Nat
  similarity : ℚ
  latitude : Option ℚ
  longitude : Option ℚ
  today : Nat
  now : TimeHM

/-- The JSON outcomes of the `absen` route in `app.py`. -/
inductive AbsenResult where
  | rejectedLiveness
  | rejectedNotRecognized
  | employeeNotFound
  | checkedIn
  | checkedOut
  | alreadyCompleted
deriving DecidableEq

/-- The new `Attendance` row built by the `absen` route (app.py lines
362-372): check-in set to now, status hard-coded to the string
`HADIR`, supplied coordinates and similarity stored. -/
def newAttendance (eid : Nat) (ev : AbsenEvent) : AttendanceRec :=
  { employee_id := eid
    tanggal := ev.today
    check_in := some ev.now
    check_out := none
    status := "HADIR"
    latitude := ev.latitude
    longitude := ev.longitude
    liveness_ok := true
    similarity := ev.similarity }

/-- The check-out mutation of the `absen` route (app.py lines 383-387):
set check_out, overwrite the coordinates. -/
def checkoutUpdate (a : AttendanceRec) (ev : AbsenEvent) : AttendanceRec :=
  { a with
    check_out := some ev.now
    latitude := ev.latitude
    longitude := ev.longitude }

/-- Write one row at its `(employee_id, tanggal)` key. -/
def storePut (db : Store) (e d : Nat) (r : AttendanceRec) : Store :=
  fun e2 d2 => if e2 = e ∧ d2 = d then some r else db e2 d2

/-- The `absen` route of `app.py` (lines 281-400), from the validation
of the engine result onwards.  `cfg` is the ambient company
configuration, which the route can read but in fact never uses; `emps`
is the employee directory (`Employee.query.get`).  A falsy
`employee_id` (`None` or `0`) is treated as not recognized, matching
`if not employee_id`. -/
def absen (cfg : CompanyConfig) (emps : Nat → Bool) (ev : AbsenEvent)
    (db : Store) : AbsenResult × Store :=
  if ev.liveness_ok = false then
    (.rejectedLiveness, db)
  else
    match ev.employee_id with
    | none => (.rejectedNotRecognized, db)
    | some eid =>
      if eid = 0 then (.rejectedNotRecognized, db)
      else if emps eid = false then (.employeeNotFound, db)
      else
        match db eid ev.today with
        | none => (.checkedIn, storePut db eid ev.today (newAttendance eid ev))
        | some a =>
          if a.check_in.isSome ∧ a.check_out = none then
            (.checkedOut, storePut db eid ev.today (checkoutUpdate a ev))
          else
            (.alreadyCompleted, db)

/-- The per-day attendance phases of the specification's state machine. -/
inductive Phase where
  | ABSENT
  | CHECKED_IN
  | CHECKED_OUT
  | OTHER
deriving DecidableEq

/-- Phase of the `(employee, date)` cell of the store: no row is
`ABSENT`, a row with only check-in is `CHECKED_IN`, a row with both is
`CHECKED_OUT`; a row without check-in (e.g. a leave row) is `OTHER`. -/
def phase (db : Store) (e d : Nat) : Phase :=
  match db e d with
  | none => .ABSENT
  | some a =>
    if a.check_in.isSome then
      (if a.check_out.isSome then .CHECKED_OUT else .CHECKED_IN)
    else
      .OTHER

/-- Concrete inputs used by witnesses below. -/
def cfg0 : CompanyConfig := ⟨0, 0⟩

/-- Directory containing every employee id. -/
def empsAll : Nat → Bool := fun _ => true

/-- Empty attendance table. -/
def db0 : Store := fun _ _ => none

/-- A recognized and live event for employee 1 at 08:00. -/
def ev800 : AbsenEvent :=
  { liveness_ok := true, employee_id := some 1, similarity := 9/10
    latitude := some 0, longitude := some 0, today := 0, now := ⟨8, 0⟩ }

/-- A recognized and live event for employee 1 at 08:06. -/
def ev806 : AbsenEvent :=
  { liveness_ok := true, employee_id := some 1, similarity := 9/10
    latitude := some 0, longitude := some 0, today := 0, now := ⟨8, 6⟩ }

/-- Sum of squares of a vector, the square of its L2 norm.  Working
with the square keeps everything rational. -/
def sumSq (v : List ℚ) : ℚ := (v.map (fun x => x * x)).sum

/-- The normalisation step `v / np.linalg.norm(v)`, guarded by
`if norm > 0`, used in `face_engine.py`.  The norm is an irrational
square root in general, so it is passed as a certified parameter `n`;
theorems about normalised vectors carry the hypotheses `0 < n` and
`n * n = sumSq v`. -/
def normalizeWith (n : ℚ) (v : List ℚ) : List ℚ :=
  if 0 < n then v.map (fun x => x / n) else v

/-- Insertion-ordered dict update: overwriting keeps the key's
position, a new key is appended (Python 3 dict semantics). -/
def dictPut {β : Type} (c : List (Nat × β)) (k : Nat) (v : β) :
    List (Nat × β) :=
  if c.any (fun p => p.1 = k) then
    c.map (fun p => if p.1 = k then (k, v) else p)
  else
    c ++ [(k, v)]

/-- `FaceCacheEntry` from `face_cache.py`.  `hash_md5` lives in an
abstract hash type `H`. -/
structure CacheEntry (H : Type) where
  employee_id : Nat
  encoding : List ℚ
  created_at : Nat
  last_accessed : Nat
  hash_md5 : H
deriving DecidableEq

/-- The in-memory dict `self.cache` of `FaceCache`, in insertion
order. -/
abbrev Cache (H : Type) : Type := List (Nat × CacheEntry H)

/-- Key lookup in the cache dict. -/
def lookupCache {H : Type} (c : Cache H) (k : Nat) : Option (CacheEntry H) :=
  (c.find? (fun p => p.1 = k)).map (fun p => p.2)

/-- `FaceCache.add` (face_cache.py lines 129-169): reject encodings
whose length is not 128, otherwise build an entry whose hash is
computed from the encoding and store it under the employee id.  The
encoding is stored exactly as supplied.  Returns the success flag and
the new cache. -/
def cacheAdd {H : Type} (hash : List ℚ → H) (c : Cache H) (eid : Nat)
    (enc : List ℚ) (now : Nat) : Bool × Cache H :=
  if enc.length = 128 then
    (true, dictPut c eid ⟨eid, enc, now, now, hash enc⟩)
  else
    (false, c)

/-- `FaceCache.remove` (face_cache.py lines 199-216): delete the key. -/
def cacheRemove {H : Type} (c : Cache H) (eid : Nat) : Cache H :=
  c.filter (fun p => ¬ p.1 = eid)

/-- `FaceCache.get` (face_cache.py lines 171-197): on a hit, update
`last_accessed`, recompute the hash of the stored encoding and compare
with the stored hash; on mismatch remove the entry and miss, otherwise
return the stored encoding. -/
def cacheGet {H : Type} [DecidableEq H] (hash : List ℚ → H) (c : Cache H)
    (eid : Nat) (now : Nat) : Option (List ℚ) × Cache H :=
  match lookupCache c eid with
  | none => (none, c)
  | some e =>
    if hash e.encoding = e.hash_md5 then
      (some e.encoding, dictPut c eid { e with last_accessed := now })
    else
      (none, cacheRemove c eid)

/-- `FaceCache._cleanup_old_entries` (face_cache.py lines 109-127):
when over `max_size`, sort the entries by `last_accessed` (Python's
`sorted` is stable, modelled by `List.mergeSort`) and delete the first
`count - max_size` keys.  Called only from `_load_cache`, never from
`add`. -/
def cleanup_old_entries {H : Type} (c : Cache H) (max_size : Nat) : Cache H :=
  if c.length ≤ max_size then c
  else
    let sorted := c.mergeSort (fun a b => a.2.last_accessed ≤ b.2.last_accessed)
    let victims := (sorted.take (c.length - max_size)).map (fun p => p.1)
    c.filter (fun p => ¬ victims.contains p.1)

/-- Dot product `np.dot` of two equal-length vectors. -/
def dot (a b : List ℚ) : ℚ := (List.zipWith (fun x y => x * y) a b).sum

/-- One iteration of the recognition loop of
`FaceEngine.process_attendance` (face_engine.py lines 223-229): the
accumulator is the running `(best_match_id, best_similarity)`; replace
it when the similarity strictly exceeds both the running best and the
recognition threshold. -/
def matchStep (threshold : ℚ) (probe : List ℚ) (acc : Option Nat × ℚ)
    (p : Nat × List ℚ) : Option Nat × ℚ :=
  let sim := dot probe p.2
  if acc.2 < sim ∧ threshold < sim then (some p.1, sim) else acc

/-- The recognition loop of `FaceEngine.process_attendance`
(face_engine.py lines 219-229): fold `matchStep` over the known faces,
starting from no match and best similarity 0.0. -/
def matchFaces (threshold : ℚ) (known : List (Nat × List ℚ))
    (probe : List ℚ) : Option Nat × ℚ :=
  known.foldl (matchStep threshold probe) (none, 0)

/-- Invariant of the recognition loop: either nothing has been
accepted and every processed similarity is at most the threshold, or
the accumulator holds an identity whose similarity exceeds the
threshold and dominates every processed similarity. -/
def matchInv (threshold : ℚ) (probe : List ℚ)
    (processed : List (Nat × List ℚ)) (acc : Option Nat × ℚ) : Prop :=
  (acc = (none, 0) ∧ ∀ p ∈ processed, dot probe p.2 ≤ threshold) ∨
  (∃ i, acc.1 = some i ∧ threshold < acc.2 ∧
    (∃ p ∈ processed, p.1 = i ∧ dot probe p.2 = acc.2) ∧
    ∀ p ∈ processed, dot probe p.2 ≤ acc.2)

/-- The result dict of `FaceEngine.process_attendance`. -/
structure ProcResult where
  employee_id : Option Nat
  similarity : ℚ
  liveness_ok : Bool
deriving DecidableEq

/-- `FaceEngine._calculate_eye_aspect_ratio` (face_engine.py lines
129-155): per-eye ratio of vertical opening to horizontal width with a
1e-6 guard, averaged over both eyes.  A landmark list too short for
the indices used (the largest is 386) raises in Python and the handler
returns 0.0. -/
def calcEAR (lms : List (ℚ × ℚ × ℚ)) : ℚ :=
  if 387 ≤ lms.length then
    let y159 := (lms.getD 159 (0, 0, 0)).2.1
    let y145 := (lms.getD 145 (0, 0, 0)).2.1
    let x33 := (lms.getD 33 (0, 0, 0)).1
    let x133 := (lms.getD 133 (0, 0, 0)).1
    let y386 := (lms.getD 386 (0, 0, 0)).2.1
    let y374 := (lms.getD 374 (0, 0, 0)).2.1
    let x362 := (lms.getD 362 (0, 0, 0)).1
    let x263 := (lms.getD 263 (0, 0, 0)).1
    let left_ear := |y159 - y145| / (|x33 - x133| + 1 / 1000000)
    let right_ear := |y386 - y374| / (|x362 - x263| + 1 / 1000000)
    (left_ear + right_ear) / 2
  else
    0

/-- `FaceEngine.process_attendance` (face_engine.py lines 157-243)
after image decoding: `face` is the landmark list when a face is
detected.  The liveness gate runs first; only when it passes is the
embedding extracted (`extract` abstracts `_extract_face_embedding`,
whose numeric content is modelled separately) and matched against the
known faces. -/
def process_attendance (extract : List (ℚ × ℚ × ℚ) → Option (List ℚ))
    (known : List (Nat × List ℚ))
    (recognition_threshold liveness_threshold : ℚ)
    (face : Option (List (ℚ × ℚ × ℚ))) : ProcResult :=
  match face with
  | none => ⟨none, 0, false⟩
  | some lms =>
    if liveness_threshold < calcEAR lms then
      match extract lms with
      | none => ⟨none, 0, true⟩
      | some emb =>
        let r := matchFaces recognition_threshold known emb
        ⟨r.1, r.2, true⟩
    else
      ⟨none, 0, false⟩

/-- The fixed landmark index list of `FaceEngine._extract_face_embedding`
(face_engine.py lines 96-102): 40 indices covering eyes, nose, mouth
and jawline. -/
def key_indices : List Nat :=
  [33, 133, 157, 158, 159, 160,
   362, 263, 386, 387, 388, 389,
   1, 2, 3, 4, 5, 6, 168, 197,
   61, 185, 40, 39, 37, 0, 267, 269, 270, 409, 291, 375,
   57, 58, 76, 77, 90, 91, 103, 104]

/-- The raw embedding before padding: for each in-range key index
append the landmark's x, y, z. -/
def rawEmbedding (lms : List (ℚ × ℚ × ℚ)) : List ℚ :=
  (key_indices.filter (fun i => i < lms.length)).flatMap
    (fun i =>
      let p := lms.getD i (0, 0, 0)
      [p.1, p.2.1, p.2.2])

/-- The padding/truncation to 128 dimensions of
`_extract_face_embedding` (face_engine.py lines 110-116). -/
def padTo128 (l : List ℚ) : List ℚ :=
  if l.length < 128 then l ++ List.replicate (128 - l.length) 0
  else l.take 128

/-- `FaceEngine._extract_face_embedding` (face_engine.py lines 96-123)
from the landmark list onwards: raw embedding, padding to 128, then
normalisation; `n` is the certified L2 norm of the padded embedding. -/
def extract_face_embedding (lms : List (ℚ × ℚ × ℚ)) (n : ℚ) : List ℚ :=
  normalizeWith n (padTo128 (rawEmbedding lms))

/-- `FaceEngine.add_face_encoding` (face_engine.py lines 309-334):
normalise the encoding (with certified norm `n`), store it in the
cache and mirror it in the in-memory `known_faces` dict. -/
def add_face_encoding {H : Type} (hash : List ℚ → H) (c : Cache H)
    (known : List (Nat × List ℚ)) (eid : Nat) (enc : List ℚ) (n : ℚ)
    (now : Nat) : Cache H × List (Nat × List ℚ) :=
  let arr := normalizeWith n enc
  ((cacheAdd hash c eid arr now).2, dictPut known eid arr)

/-- Degrees to radians, `math.radians`. -/
noncomputable def radians (x : ℚ) : ℝ := (x : ℝ) * Real.pi / 180

/-- `calculate_distance` from `app.py` (lines 78-92): the haversine
formula with Earth radius 6,371,000 m.  The source returns infinity
when any coordinate is `None`; this models the all-coordinates-present
path, the only one relevant to the claims. -/
noncomputable def calculate_distance (lat1 lon1 lat2 lon2 : ℚ) : ℝ :=
  let rlat1 := radians lat1
  let rlat2 := radians lat2
  let dlat := rlat2 - rlat1
  let dlon := radians lon2 - radians lon1
  let a := Real.sin (dlat / 2) ^ 2 +
    Real.cos rlat1 * Real.cos rlat2 * Real.sin (dlon / 2) ^ 2
  2 * Real.arcsin (Real.sqrt a) * 6371000

/-- A length-128 vector of norm 2 (not unit-normalised). -/
def v128two : List ℚ := 2 :: List.replicate 127 0

/-- A length-128 unit vector. -/
def v128unit : List ℚ := 1 :: List.replicate 127 0

/-- A cache entry with a valid hash under the identity hash model. -/
def ent (i last : Nat) : CacheEntry (List ℚ) := ⟨i, v128unit, last, last, v128unit⟩

/-- A corrupted entry: the stored hash does not match the encoding. -/
def entBad : CacheEntry (List ℚ) := ⟨7, v128unit, 0, 0, [99]⟩

/-- A one-entry cache holding the corrupted entry. -/
def cBad : Cache (List ℚ) := [(7, entBad)]

/-- The cache obtained by three `add` calls for identities 1, 2, 3 at
times 0, 1, 2 with no intervening access. -/
def c3adds : Cache (List ℚ) :=
  (cacheAdd id (cacheAdd id (cacheAdd id [] 1 v128unit 0).2
    2 v128unit 1).2 3 v128unit 2).2

/-- A three-entry cache with a `last_accessed` tie between the first
two entries. -/
def cTie : Cache (List ℚ) := [(1, ent 1 5), (2, ent 2 5), (3, ent 3 9)]

/-- All-zero landmark list, long enough for every index the code
reads. -/
def lmsZero : List (ℚ × ℚ × ℚ) := List.replicate 400 (0, 0, 0)

/-- A single-landmark list; only key index 0 is in range, so the raw
embedding is `[2, 0, 0]` with norm 2. -/
def lmsOne : List (ℚ × ℚ × ℚ) := [(2, 0, 0)]

/-- A company location on the opposite side of the globe from
latitude/longitude (0, 0). -/
def cfg180 : CompanyConfig := ⟨180, 0⟩

/-- An event whose liveness check failed. -/
def evDead : AbsenEvent :=
  { liveness_ok := false, employee_id := some 1, similarity := 9/10
    latitude := some 0, longitude := some 0, today := 0, now := ⟨8, 0⟩ }

/-- C1: for a recognized and live event the route either creates the
day's row with check-in set, completes it with check-out, or rejects a
completed row without mutating anything; all other cells of the store
are untouched. -/
theorem absen_state_machine (cfg : CompanyConfig) (emps : Nat → Bool)
    (ev : AbsenEvent) (db : Store) (eid : Nat)
    (hlive : ev.liveness_ok = true) (hid : ev.employee_id = some eid)
    (h0 : eid ≠ 0) (hemp : emps eid = true) :
    (db eid ev.today = none →
      (absen cfg emps ev db).1 = .checkedIn ∧
      (absen cfg emps ev db).2 eid ev.today = some (newAttendance eid ev) ∧
      phase (absen cfg emps ev db).2 eid ev.today = .CHECKED_IN) ∧
    (∀ a, db eid ev.today = some a → a.check_in.isSome = true →
      a.check_out = none →
      (absen cfg emps ev db).1 = .checkedOut ∧
      (absen cfg emps ev db).2 eid ev.today = some (checkoutUpdate a ev) ∧
      phase (absen cfg emps ev db).2 eid ev.today = .CHECKED_OUT) ∧
    (∀ a, db eid ev.today = some a → a.check_in.isSome = true →
      a.check_out.isSome = true →
      absen cfg emps ev db = (.alreadyCompleted, db)) ∧
    (∀ e2 d2, ¬(e2 = eid ∧ d2 = ev.today) →
      (absen cfg emps ev db).2 e2 d2 = db e2 d2) := by
  refine ⟨?_, ?_, ?_, ?_⟩
  · intro hstate
    simp [absen, hlive, hid, h0, hemp, hstate, storePut, phase, newAttendance]
  · intro a hstate hin hout
    simp [absen, hlive, hid, h0, hemp, hstate, hin, hout, storePut, phase,
      checkoutUpdate]
  · intro a hstate hin hout
    have hne : a.check_out ≠ none := by
      intro h
      rw [h] at hout
      simp at hout
    simp [absen, hlive, hid, h0, hemp, hstate, hin, hne]
  · intro e2 d2 hkey
    by_cases hstate : (db eid ev.today).isSome
    · obtain ⟨a, ha⟩ := Option.isSome_iff_exists.mp hstate
      by_cases hbranch : a.check_in.isSome ∧ a.check_out = none
      · simp [absen, hlive, hid, h0, hemp, ha, hbranch, storePut, hkey]
      · simp [absen, hlive, hid, h0, hemp, ha, hbranch, storePut, hkey]
    · have ha : db eid ev.today = none := Option.not_isSome_iff_eq_none.mp hstate
      simp [absen, hlive, hid, h0, hemp, ha, storePut, hkey]

/-- Witness for C1: a fresh check-in, a check-out, and a rejected third
event on a concrete store. -/
theorem absen_state_machine_witness :
    (absen cfg0 empsAll ev800 db0).1 = .checkedIn ∧
    (absen cfg0 empsAll ev800 db0).2 1 0 = some (newAttendance 1 ev800) ∧
    phase (absen cfg0 empsAll ev800 db0).2 1 0 = .CHECKED_IN := by
  exact (absen_state_machine cfg0 empsAll ev800 db0 1 rfl rfl
    (by decide) rfl).1 rfl

/-- C2 (code bug evidence): `get_attendance_status` classifies 08:05 as
`HADIR` and 08:06 as `TERLAMBAT` for shift start 08:00 with tolerance
5, but the `absen` route never calls it: the row it creates for a
check-in at 08:06 carries status `HADIR`. -/
theorem absen_ignores_lateness :
    get_attendance_status (some ⟨8, 5⟩) ⟨8, 0⟩ 5 = "HADIR" ∧
    get_attendance_status (some ⟨8, 6⟩) ⟨8, 0⟩ 5 = "TERLAMBAT" ∧
    ((absen cfg0 empsAll ev806 db0).2 1 0).map AttendanceRec.status =
      some "HADIR" := by
  refine ⟨by decide, by decide, ?_⟩
  simp [absen, ev806, db0, empsAll, storePut, newAttendance]

/-- If some key `k` occurs in the dict, the in-place overwrite makes
`find?` return the fresh pair. -/
theorem find?_map_put {H : Type} (t : Cache H) (k : Nat) (e : CacheEntry H)
    (h : t.any (fun p => p.1 = k) = true) :
    (t.map (fun p => if p.1 = k then (k, e) else p)).find?
      (fun p => p.1 = k) = some (k, e) := by
  induction t with
  | nil => simp at h
  | cons p tl ih =>
    by_cases hp : p.1 = k
    · simp [hp]
    · simp only [List.map_cons, if_neg hp]
      rw [List.find?_cons_of_neg _ (by simp [hp])]
      exact ih (by simpa [hp] using h)

/-- If the key `k` is absent, `find?` after appending `(k, e)` returns
the fresh pair. -/
theorem find?_append_put {H : Type} (t : Cache H) (k : Nat) (e : CacheEntry H)
    (h : t.any (fun p => p.1 = k) = false) :
    (t ++ [(k, e)]).find? (fun p => p.1 = k) = some (k, e) := by
  induction t with
  | nil => simp
  | cons p tl ih =>
    have hp : ¬ p.1 = k := by
      intro hk
      simp [hk] at h
    rw [List.cons_append, List.find?_cons_of_neg _ (by simp [hp])]
    exact ih (by simpa [hp] using h)

/-- Looking up the key just written by `dictPut` yields the written
entry. -/
theorem lookupCache_dictPut_self {H : Type} (c : Cache H) (k : Nat)
    (e : CacheEntry H) : lookupCache (dictPut c k e) k = some e := by
  unfold dictPut lookupCache
  by_cases h : c.any (fun p => p.1 = k) = true
  · rw [if_pos h, find?_map_put c k e h]
    rfl
  · rw [if_neg h, find?_append_put c k e (Bool.not_eq_true _ ▸ h)]
    rfl

/-- After `remove`, the key is gone. -/
theorem lookupCache_remove_self {H : Type} (c : Cache H) (eid : Nat) :
    lookupCache (cacheRemove c eid) eid = none := by
  unfold lookupCache cacheRemove
  rw [List.find?_eq_none.mpr]
  · rfl
  · intro p hp
    have := List.of_mem_filter hp
    simpa using this

/-- C4 (amended): `add` stores the supplied length-128 vector exactly
as given, without normalising it, and an uncorrupted `get` returns it
verbatim. -/
theorem cache_roundtrip_verbatim {H : Type} [DecidableEq H]
    (hash : List ℚ → H) (c : Cache H) (eid : Nat) (enc : List ℚ)
    (t1 t2 : Nat) (hlen : enc.length = 128) :
    (cacheGet hash (cacheAdd hash c eid enc t1).2 eid t2).1 = some enc := by
  simp only [cacheAdd, if_pos hlen]
  simp [cacheGet, lookupCache_dictPut_self]

/-- Witness for C4's amended round-trip on a concrete cache. -/
theorem cache_roundtrip_verbatim_witness :
    (cacheGet id (cacheAdd id ([] : Cache (List ℚ)) 7 v128two 0).2 7 1).1 =
      some v128two := by
  exact cache_roundtrip_verbatim id [] 7 v128two 0 1 (by simp [v128two])

/-- C4 counterexample: adding the non-unit vector `v128two` and reading
it back returns `v128two` itself, which differs from its normalisation
(whose certified norm is 2, since `2 * 2 = sumSq v128two`). -/
theorem cache_add_does_not_normalize :
    (cacheGet id (cacheAdd id ([] : Cache (List ℚ)) 7 v128two 0).2 7 1).1 =
      some v128two ∧
    (2 : ℚ) * 2 = sumSq v128two ∧
    v128two ≠ normalizeWith 2 v128two := by
  refine ⟨?_, ?_, ?_⟩
  · simp [cacheAdd, v128two, dictPut, cacheGet, lookupCache]
  · simp [sumSq, v128two, List.map_replicate, List.sum_replicate]
  · simp [normalizeWith, v128two, List.map_replicate]

/-- C7: when the stored hash disagrees with the hash recomputed from
the stored vector, `get` misses, the entry is removed, and a second
`get` misses as well. -/
theorem cache_self_heal {H : Type} [DecidableEq H] (hash : List ℚ → H)
    (c : Cache H) (eid : Nat) (t1 t2 : Nat) (e : CacheEntry H)
    (hfound : lookupCache c eid = some e)
    (hbad : hash e.encoding ≠ e.hash_md5) :
    (cacheGet hash c eid t1).1 = none ∧
    (cacheGet hash c eid t1).2 = cacheRemove c eid ∧
    lookupCache (cacheGet hash c eid t1).2 eid = none ∧
    (cacheGet hash (cacheGet hash c eid t1).2 eid t2).1 = none := by
  have hrem : lookupCache (cacheRemove c eid) eid = none :=
    lookupCache_remove_self c eid
  refine ⟨?_, ?_, ?_, ?_⟩ <;>
    simp [cacheGet, hfound, hbad, hrem]

/-- Witness for C7 on a concrete corrupted cache. -/
theorem cache_self_heal_witness :
    (cacheGet id cBad 7 1).1 = none ∧
    (cacheGet id cBad 7 1).2 = cacheRemove cBad 7 ∧
    lookupCache (cacheGet id cBad 7 1).2 7 = none ∧
    (cacheGet id (cacheGet id cBad 7 1).2 7 2).1 = none := by
  exact cache_self_heal id cBad 7 1 2 entBad (by rfl)
    (by simp [entBad, v128unit])

/-- Core of C3: when over capacity, `_cleanup_old_entries` keeps
exactly `max_size` entries and every evicted entry was accessed no
later than every surviving entry. -/
theorem cleanup_evicts_lru {H : Type} (c : Cache H) (max_size : Nat)
    (hnodup : (c.map Prod.fst).Nodup) (hover : max_size < c.length) :
    (cleanup_old_entries c max_size).length = max_size ∧
    (∀ p ∈ c, p ∉ cleanup_old_entries c max_size →
      ∀ q ∈ cleanup_old_entries c max_size,
        p.2.last_accessed ≤ q.2.last_accessed) := by
  have hnle : ¬ c.length ≤ max_size := by omega
  set le : (Nat × CacheEntry H) → (Nat × CacheEntry H) → Bool :=
    fun a b => a.2.last_accessed ≤ b.2.last_accessed with hle
  set sorted := c.mergeSort le with hsorted
  set k := c.length - max_size with hk
  set victims := (sorted.take k).map (fun p => p.1) with hvictims
  set pred : (Nat × CacheEntry H) → Bool :=
    fun p => ¬ victims.contains p.1 with hpred
  have hclean : cleanup_old_entries c max_size = c.filter pred := by
    rw [cleanup_old_entries, if_neg hnle]
  have hpredT : ∀ r, pred r = true ↔ r.1 ∉ victims := by
    intro r
    simp [hpred]
  have hperm : List.Perm sorted c := List.mergeSort_perm c le
  have htrans : ∀ a b d, le a b → le b d → le a d := by
    intro a b d hab hbd
    simp only [hle, decide_eq_true_eq] at hab hbd ⊢
    omega
  have htotal : ∀ a b, le a b || le b a := by
    intro a b
    simp only [hle, Bool.or_eq_true, decide_eq_true_eq]
    omega
  have hpair : List.Pairwise (fun a b => le a b = true) sorted :=
    List.sorted_mergeSort htrans htotal c
  have hsplit : sorted.take k ++ sorted.drop k = sorted :=
    List.take_append_drop k sorted
  have hnodS : (sorted.map Prod.fst).Nodup :=
    ((hperm.map Prod.fst).nodup_iff).mpr hnodup
  have hndS : sorted.Nodup := hnodS.of_map
  have hinj : ∀ p ∈ sorted, ∀ q ∈ sorted, p.1 = q.1 → p = q := by
    intro p hp q hq h
    exact List.inj_on_of_nodup_map hnodS hp hq h
  have hkey : ∀ p ∈ sorted, (p.1 ∈ victims ↔ p ∈ sorted.take k) := by
    intro p hp
    constructor
    · intro hcon
      rw [hvictims, List.mem_map] at hcon
      obtain ⟨q, hq, hqp⟩ := hcon
      have hqS : q ∈ sorted := List.mem_of_mem_take hq
      have hpq : p = q := hinj p hp q hqS hqp.symm
      rw [hpq]
      exact hq
    · intro hmem
      rw [hvictims, List.mem_map]
      exact ⟨p, hmem, rfl⟩
  have hdisj : List.Disjoint (sorted.take k) (sorted.drop k) := by
    apply List.disjoint_of_nodup_append
    rw [hsplit]
    exact hndS
  have htake : (sorted.take k).filter pred = [] := by
    rw [List.filter_eq_nil_iff]
    intro a ha
    have haS : a ∈ sorted := List.mem_of_mem_take ha
    have hmem : a.1 ∈ victims := (hkey a haS).mpr ha
    simp [hpredT a, hmem]
  have hdrop : (sorted.drop k).filter pred = sorted.drop k := by
    rw [List.filter_eq_self]
    intro a ha
    have haS : a ∈ sorted := List.mem_of_mem_drop ha
    rw [hpredT a]
    intro hcon
    exact hdisj ((hkey a haS).mp hcon) ha
  have hfs : sorted.filter pred = sorted.drop k := by
    conv_lhs => rw [← hsplit]
    rw [List.filter_append, htake, hdrop, List.nil_append]
  have hpf : List.Perm (sorted.filter pred) (c.filter pred) := hperm.filter pred
  have hlenS : sorted.length = c.length := hperm.length_eq
  constructor
  · rw [hclean, ← hpf.length_eq, hfs, List.length_drop, hlenS]
    omega
  · intro p hpc hpnot q hq
    rw [hclean] at hpnot hq
    have hpS : p ∈ sorted := hperm.mem_iff.mpr hpc
    have hppred : pred p = false := by
      cases hp2 : pred p
      · rfl
      · exact absurd (List.mem_filter.mpr ⟨hpc, hp2⟩) hpnot
    have hpvic : p.1 ∈ victims := by
      by_contra hcon
      have h2 := (hpredT p).mpr hcon
      rw [h2] at hppred
      cases hppred
    have hptake : p ∈ sorted.take k := (hkey p hpS).mp hpvic
    have hqc : q ∈ c := (List.mem_filter.mp hq).1
    have hqpred : q.1 ∉ victims := (hpredT q).mp (List.mem_filter.mp hq).2
    have hqS : q ∈ sorted := hperm.mem_iff.mpr hqc
    have hqdrop : q ∈ sorted.drop k := by
      rcases List.mem_append.mp (hsplit ▸ hqS) with h | h
      · exact absurd ((hkey q hqS).mpr h) hqpred
      · exact h
    have hle2 : le p q = true := by
      have hpa := List.pairwise_append.mp (hsplit ▸ hpair)
      exact hpa.2.2 p hptake q hqdrop
    simpa [hle] using hle2

/-- C3 (amended): eviction happens only in `_cleanup_old_entries`
(invoked from `_load_cache`): when the count exceeds `max_size` it
keeps exactly `max_size` entries, evicting least-recently-accessed
first, ties broken by insertion order; `add` itself never evicts, so
three `add` calls with `max_size = 2` leave all three entries. -/
theorem cache_eviction_only_on_cleanup :
    (∀ (H : Type) (c : Cache H) (max_size : Nat),
      (c.map Prod.fst).Nodup → max_size < c.length →
      (cleanup_old_entries c max_size).length = max_size ∧
      (∀ p ∈ c, p ∉ cleanup_old_entries c max_size →
        ∀ q ∈ cleanup_old_entries c max_size,
          p.2.last_accessed ≤ q.2.last_accessed)) ∧
    c3adds.length = 3 ∧
    lookupCache c3adds 1 = some ⟨1, v128unit, 0, 0, v128unit⟩ ∧
    cleanup_old_entries c3adds 2 =
      [(2, ⟨2, v128unit, 1, 1, v128unit⟩), (3, ⟨3, v128unit, 2, 2, v128unit⟩)] ∧
    cleanup_old_entries cTie 2 = [(2, ent 2 5), (3, ent 3 9)] := by
  refine ⟨fun H c m h1 h2 => cleanup_evicts_lru c m h1 h2, ?_, ?_, ?_, ?_⟩
  · simp [c3adds, cacheAdd, v128unit, dictPut]
  · simp [c3adds, cacheAdd, v128unit, dictPut, lookupCache]
  · simp [c3adds, cacheAdd, v128unit, dictPut, cleanup_old_entries,
      List.mergeSort]
  · simp [cleanup_old_entries, cTie, List.mergeSort, ent]

/-- C3 counterexample: after adding identities 1, 2, 3 to a cache (the
first never re-accessed), the first identity is still present and the
count is 3: `add` performed no eviction. -/
theorem add_three_no_eviction :
    c3adds.length = 3 ∧
    lookupCache c3adds 1 = some ⟨1, v128unit, 0, 0, v128unit⟩ := by
  constructor
  · simp [c3adds, cacheAdd, v128unit, dictPut]
  · simp [c3adds, cacheAdd, v128unit, dictPut, lookupCache]

/-- Witness for C3's general part on the concrete three-entry cache. -/
theorem cache_eviction_only_on_cleanup_witness :
    (cleanup_old_entries c3adds 2).length = 2 := by
  have hnodup : (c3adds.map Prod.fst).Nodup := by
    simp [c3adds, cacheAdd, v128unit, dictPut]
  have hover : 2 < c3adds.length := by
    simp [c3adds, cacheAdd, v128unit, dictPut]
  exact (cache_eviction_only_on_cleanup.1 (List ℚ) c3adds 2 hnodup hover).1

/-- The self dot product is the sum of squares. -/
theorem dot_self_eq_sumSq (v : List ℚ) : dot v v = sumSq v := by
  induction v with
  | nil => rfl
  | cons x t ih =>
    have ih2 := ih
    simp only [dot, sumSq] at ih2 ⊢
    simp only [List.zipWith_cons_cons, List.map_cons, List.sum_cons]
    rw [ih2]

/-- One step of the recognition loop preserves the loop invariant. -/
theorem matchStep_inv (θ : ℚ) (probe : List ℚ) (hθ : 0 ≤ θ)
    (processed : List (Nat × List ℚ)) (acc : Option Nat × ℚ)
    (p : Nat × List ℚ) (hinv : matchInv θ probe processed acc) :
    matchInv θ probe (processed ++ [p]) (matchStep θ probe acc p) := by
  rw [matchStep]
  by_cases hc : acc.2 < dot probe p.2 ∧ θ < dot probe p.2
  · rw [if_pos hc]
    right
    refine ⟨p.1, rfl, hc.2, ⟨p, by simp, rfl, rfl⟩, ?_⟩
    intro q hq
    rcases List.mem_append.mp hq with hq2 | hq2
    · rcases hinv with ⟨hacc, hall⟩ | ⟨i, hi, hθi, hw, hall⟩
      · exact le_of_lt (lt_of_le_of_lt (hall q hq2) hc.2)
      · exact le_of_lt (lt_of_le_of_lt (hall q hq2) hc.1)
    · simp only [List.mem_singleton] at hq2
      rw [hq2]
  · rw [if_neg hc]
    push_neg at hc
    rcases hinv with ⟨hacc, hall⟩ | ⟨i, hi, hθi, hw, hall⟩
    · left
      refine ⟨hacc, ?_⟩
      intro q hq
      rcases List.mem_append.mp hq with hq2 | hq2
      · exact hall q hq2
      · simp only [List.mem_singleton] at hq2
        rw [hq2]
        by_cases hlt : acc.2 < dot probe p.2
        · exact hc hlt
        · have h2 : dot probe p.2 ≤ acc.2 := le_of_not_lt hlt
          rw [hacc] at h2
          exact le_trans h2 hθ
    · right
      obtain ⟨r, hr, hr1, hr2⟩ := hw
      refine ⟨i, hi, hθi, ⟨r, List.mem_append_left _ hr, hr1, hr2⟩, ?_⟩
      intro q hq
      rcases List.mem_append.mp hq with hq2 | hq2
      · exact hall q hq2
      · simp only [List.mem_singleton] at hq2
        rw [hq2]
        by_cases hlt : acc.2 < dot probe p.2
        · exact le_of_lt (lt_of_le_of_lt (hc hlt) hθi)
        · exact le_of_not_lt hlt

/-- Folding the recognition loop over the remaining entries preserves
the loop invariant. -/
theorem matchFold_inv (θ : ℚ) (probe : List ℚ) (hθ : 0 ≤ θ) :
    ∀ (rest processed : List (Nat × List ℚ)) (acc : Option Nat × ℚ),
      matchInv θ probe processed acc →
      matchInv θ probe (processed ++ rest)
        (rest.foldl (matchStep θ probe) acc) := by
  intro rest
  induction rest with
  | nil =>
    intro processed acc h
    simpa using h
  | cons p t ih =>
    intro processed acc h
    have h2 := matchStep_inv θ probe hθ processed acc p h
    have h3 := ih (processed ++ [p]) (matchStep θ probe acc p) h2
    simpa [List.append_assoc] using h3

/-- C6 (amended): for a nonnegative threshold (the configured values
are 0.6 and 0.4) the loop reports not-recognized exactly when no
enrolled similarity exceeds the threshold, and otherwise returns an
enrolled identity realising the maximum similarity, which exceeds the
threshold; for a sole enrolled unit vector probed with itself the
match succeeds with similarity 1.0 whenever the threshold is strictly
below 1.0. -/
theorem matcher_argmax_threshold :
    (∀ (θ : ℚ) (known : List (Nat × List ℚ)) (probe : List ℚ), 0 ≤ θ →
      ((matchFaces θ known probe).1 = none →
        (matchFaces θ known probe).2 = 0 ∧
        ∀ p ∈ known, dot probe p.2 ≤ θ) ∧
      (∀ i, (matchFaces θ known probe).1 = some i →
        θ < (matchFaces θ known probe).2 ∧
        (∃ p ∈ known, p.1 = i ∧
          dot probe p.2 = (matchFaces θ known probe).2) ∧
        ∀ p ∈ known, dot probe p.2 ≤ (matchFaces θ known probe).2)) ∧
    (∀ (A : Nat) (V : List ℚ) (θ : ℚ), 0 ≤ θ → θ < 1 → sumSq V = 1 →
      matchFaces θ [(A, V)] V = (some A, 1)) := by
  constructor
  · intro θ known probe hθ
    have hinv0 : matchInv θ probe [] (none, 0) := Or.inl ⟨rfl, by simp⟩
    have hinv := matchFold_inv θ probe hθ known [] (none, 0) hinv0
    rw [List.nil_append] at hinv
    have hm : matchFaces θ known probe =
        known.foldl (matchStep θ probe) (none, 0) := rfl
    rw [← hm] at hinv
    constructor
    · intro hnone
      rcases hinv with ⟨hacc, hall⟩ | ⟨i, hi, _, _, _⟩
      · exact ⟨by rw [hacc], hall⟩
      · rw [hnone] at hi
        cases hi
    · intro i hsome
      rcases hinv with ⟨hacc, _⟩ | ⟨j, hj, hθj, hw, hall⟩
      · rw [hacc] at hsome
        cases hsome
      · rw [hj] at hsome
        have hij : j = i := Option.some.inj hsome
        rw [hij] at hw
        exact ⟨hθj, hw, hall⟩
  · intro A V θ hθ0 hθ1 hV
    have hdot : dot V V = 1 := by
      rw [dot_self_eq_sumSq]
      exact hV
    show List.foldl (matchStep θ V) (none, 0) [(A, V)] = (some A, 1)
    rw [List.foldl_cons, List.foldl_nil, matchStep]
    simp only [hdot]
    rw [if_pos]
    exact ⟨by norm_num, hθ1⟩

/-- C6 counterexample: with the sole enrolled unit vector `v128unit`
and threshold exactly 1.0 (allowed by the claim's condition that the
threshold be at most 1.0), probing with the vector itself is rejected
with similarity 0.0, because the acceptance comparison is strict. -/
theorem matcher_rejects_at_threshold_one :
    sumSq v128unit = 1 ∧ (1 : ℚ) ≤ 1 ∧
    matchFaces 1 [(5, v128unit)] v128unit = (none, 0) := by
  have hdot : dot v128unit v128unit = 1 := by
    simp [dot, v128unit, List.zipWith_replicate, List.sum_replicate]
  refine ⟨?_, le_refl 1, ?_⟩
  · simp [sumSq, v128unit, List.map_replicate, List.sum_replicate]
  · show List.foldl (matchStep 1 v128unit) (none, 0) [(5, v128unit)] =
      (none, 0)
    rw [List.foldl_cons, List.foldl_nil, matchStep]
    simp only [hdot]
    rw [if_neg]
    intro h
    exact absurd h.2 (lt_irrefl 1)

/-- Witness for C6 at the configured threshold 0.6. -/
theorem matcher_argmax_threshold_witness :
    matchFaces (3/5) [(5, v128unit)] v128unit = (some 5, 1) := by
  apply matcher_argmax_threshold.2 5 v128unit (3/5) (by norm_num)
    (by norm_num)
  simp [sumSq, v128unit, List.map_replicate, List.sum_replicate]

/-- Dividing every component scales the sum of squares by the inverse
square of the divisor. -/
theorem sumSq_map_div (v : List ℚ) (n : ℚ) :
    sumSq (v.map (fun x => x / n)) = sumSq v / (n * n) := by
  induction v with
  | nil => simp [sumSq]
  | cons x t ih =>
    simp only [sumSq, List.map_cons, List.sum_cons] at ih ⊢
    rw [ih]
    ring

/-- Normalising with a certified positive norm yields a unit vector
(sum of squares 1). -/
theorem sumSq_normalizeWith (v : List ℚ) (n : ℚ) (hn : 0 < n)
    (hsq : n * n = sumSq v) : sumSq (normalizeWith n v) = 1 := by
  rw [normalizeWith, if_pos hn, sumSq_map_div, ← hsq]
  exact div_self (ne_of_gt (mul_pos hn hn))

/-- Normalisation preserves the length of the vector. -/
theorem normalizeWith_length (n : ℚ) (v : List ℚ) :
    (normalizeWith n v).length = v.length := by
  rw [normalizeWith]
  split
  · rw [List.length_map]
  · rfl

/-- C5 (amended): a vector produced by the extractor from a raw
embedding of positive norm has sum of squares exactly 1, and the
vector `FaceEngine.add_face_encoding` stores in the cache is the
normalised one, again of sum of squares 1; `FaceCache.add` itself
never normalises (see the counterexample). -/
theorem extractor_and_engine_store_unit_vectors :
    (∀ (lms : List (ℚ × ℚ × ℚ)) (n : ℚ), 0 < n →
      n * n = sumSq (padTo128 (rawEmbedding lms)) →
      sumSq (extract_face_embedding lms n) = 1) ∧
    (∀ (H : Type) (hash : List ℚ → H) (c : Cache H)
      (known : List (Nat × List ℚ)) (eid : Nat) (enc : List ℚ) (n : ℚ)
      (now : Nat), enc.length = 128 → 0 < n → n * n = sumSq enc →
      lookupCache (add_face_encoding hash c known eid enc n now).1 eid =
        some ⟨eid, normalizeWith n enc, now, now,
          hash (normalizeWith n enc)⟩ ∧
      sumSq (normalizeWith n enc) = 1) := by
  constructor
  · intro lms n hn hsq
    rw [extract_face_embedding]
    exact sumSq_normalizeWith _ n hn hsq
  · intro H hash c known eid enc n now hlen hn hsq
    constructor
    · rw [add_face_encoding]
      have harr : (normalizeWith n enc).length = 128 := by
        rw [normalizeWith_length]
        exact hlen
      simp only [cacheAdd, if_pos harr]
      exact lookupCache_dictPut_self c eid _
    · exact sumSq_normalizeWith enc n hn hsq

/-- C5 counterexample: `FaceCache.add` accepts the length-128 vector
`v128two`, whose L2 norm is 2 (certified by `2 * 2 = sumSq v128two`),
stores it unchanged, and `get` returns it; 2 is not within 1e-5 of 1,
so a vector read from the cache can fail the unit-norm invariant. -/
theorem cache_holds_non_unit_vector :
    (cacheAdd id ([] : Cache (List ℚ)) 7 v128two 0).1 = true ∧
    (cacheGet id (cacheAdd id ([] : Cache (List ℚ)) 7 v128two 0).2 7 1).1 =
      some v128two ∧
    (2 : ℚ) * 2 = sumSq v128two ∧
    1 / 100000 < |(2 : ℚ) - 1| := by
  refine ⟨?_, ?_, ?_, by norm_num⟩
  · simp [cacheAdd, v128two]
  · simp [cacheAdd, v128two, dictPut, cacheGet, lookupCache]
  · simp [sumSq, v128two, List.map_replicate, List.sum_replicate]

/-- Witness for C5 on a concrete landmark list and a concrete engine
store. -/
theorem extractor_and_engine_store_unit_vectors_witness :
    sumSq (extract_face_embedding lmsOne 2) = 1 ∧
    sumSq (normalizeWith 2 v128two) = 1 := by
  constructor
  · apply extractor_and_engine_store_unit_vectors.1 lmsOne 2 (by norm_num)
    have hraw : rawEmbedding lmsOne = [2, 0, 0] := by
      simp [rawEmbedding, lmsOne, key_indices]
    rw [hraw, padTo128, if_pos (by norm_num)]
    norm_num [sumSq, List.map_replicate, List.sum_replicate]
  · exact (extractor_and_engine_store_unit_vectors.2 (List ℚ) id [] [] 7
      v128two 2 0 (by simp [v128two]) (by norm_num)
      (by simp [sumSq, v128two, List.map_replicate, List.sum_replicate])).2

/-- Every landmark of the all-zero list is the origin. -/
theorem lmsZero_getD (i : Nat) (h : i < 400) :
    lmsZero.getD i (0, 0, 0) = (0, 0, 0) := by
  rw [lmsZero, List.getD_eq_getElem?_getD, List.getElem?_replicate, if_pos h]
  rfl

/-- The eye aspect ratio of the all-zero landmark list is 0. -/
theorem calcEAR_lmsZero : calcEAR lmsZero = 0 := by
  rw [calcEAR, if_pos (by rw [lmsZero, List.length_replicate]; norm_num)]
  rw [lmsZero_getD 159 (by norm_num), lmsZero_getD 145 (by norm_num),
    lmsZero_getD 33 (by norm_num), lmsZero_getD 133 (by norm_num),
    lmsZero_getD 386 (by norm_num), lmsZero_getD 374 (by norm_num),
    lmsZero_getD 362 (by norm_num), lmsZero_getD 263 (by norm_num)]
  norm_num

/-- C8: the pipeline returns the no-identity rejection when no face is
detected or the liveness gate fails — for every extraction function
and every set of known faces, so identification is never attempted —
and the route leaves the attendance store untouched on any rejected
event. -/
theorem gates_short_circuit :
    (∀ (extract : List (ℚ × ℚ × ℚ) → Option (List ℚ))
      (known : List (Nat × List ℚ)) (rt lt : ℚ),
      process_attendance extract known rt lt none = ⟨none, 0, false⟩) ∧
    (∀ (extract : List (ℚ × ℚ × ℚ) → Option (List ℚ))
      (known : List (Nat × List ℚ)) (rt lt : ℚ)
      (lms : List (ℚ × ℚ × ℚ)), calcEAR lms ≤ lt →
      process_attendance extract known rt lt (some lms) =
        ⟨none, 0, false⟩) ∧
    (∀ (cfg : CompanyConfig) (emps : Nat → Bool) (ev : AbsenEvent)
      (db : Store), ev.liveness_ok = false →
      absen cfg emps ev db = (.rejectedLiveness, db)) ∧
    (∀ (cfg : CompanyConfig) (emps : Nat → Bool) (ev : AbsenEvent)
      (db : Store), ev.liveness_ok = true → ev.employee_id = none →
      absen cfg emps ev db = (.rejectedNotRecognized, db)) := by
  refine ⟨fun extract known rt lt => rfl, ?_, ?_, ?_⟩
  · intro extract known rt lt lms h
    rw [process_attendance, if_neg (not_lt.mpr h)]
  · intro cfg emps ev db h
    rw [absen, if_pos h]
  · intro cfg emps ev db hlive hid
    rw [absen, if_neg (by rw [hlive]; intro h2; cases h2), hid]

/-- Witness for C8: a concrete all-zero face fails liveness for every
extraction function and store, and a concrete failed-liveness event
leaves the concrete store unchanged. -/
theorem gates_short_circuit_witness :
    process_attendance (fun _ => none) [] (3/5) (3/20) (some lmsZero) =
      ⟨none, 0, false⟩ ∧
    absen cfg0 empsAll evDead db0 = (.rejectedLiveness, db0) := by
  constructor
  · apply gates_short_circuit.2.1 (fun _ => none) [] (3/5) (3/20) lmsZero
    rw [calcEAR_lmsZero]
    norm_num
  · exact gates_short_circuit.2.2.1 cfg0 empsAll evDead db0 rfl

/-- C9 (amended): `calculate_distance` is the haversine formula with
Earth radius 6,371,000 m, but the route neither computes nor stores
it: the outcome and the new store are identical for any two company
configurations, and a record written by a check-in or check-out holds
exactly the supplied raw coordinates. -/
theorem geofence_stored_raw_not_blocking (cfg cfg2 : CompanyConfig)
    (emps : Nat → Bool) (ev : AbsenEvent) (db : Store) (eid : Nat)
    (hlive : ev.liveness_ok = true) (hid : ev.employee_id = some eid)
    (h0 : eid ≠ 0) (hemp : emps eid = true) :
    absen cfg emps ev db = absen cfg2 emps ev db ∧
    (((absen cfg emps ev db).1 = .checkedIn ∨
      (absen cfg emps ev db).1 = .checkedOut) →
      ∃ r, (absen cfg emps ev db).2 eid ev.today = some r ∧
        r.latitude = ev.latitude ∧ r.longitude = ev.longitude) := by
  refine ⟨rfl, ?_⟩
  intro hact
  by_cases hstate : (db eid ev.today).isSome
  · obtain ⟨a, ha⟩ := Option.isSome_iff_exists.mp hstate
    by_cases hbranch : a.check_in.isSome ∧ a.check_out = none
    · refine ⟨checkoutUpdate a ev, ?_, rfl, rfl⟩
      simp [absen, hlive, hid, h0, hemp, ha, hbranch, storePut]
    · exfalso
      have : absen cfg emps ev db = (.alreadyCompleted, db) := by
        simp [absen, hlive, hid, h0, hemp, ha, hbranch]
      rcases hact with h | h <;> rw [this] at h <;> cases h
  · have ha : db eid ev.today = none := Option.not_isSome_iff_eq_none.mp hstate
    refine ⟨newAttendance eid ev, ?_, rfl, rfl⟩
    simp [absen, hlive, hid, h0, hemp, ha, storePut, newAttendance]

/-- C9 counterexample: moving the configured company location from
(0,0) to (180,0) changes the haversine distance to the supplied
coordinates (0,0) from 0 to π·6,371,000 m, yet the route's outcome and
stored record for a recognized live event at (0,0) are exactly the
same — so the distance to the configured company location cannot have
been computed and stored with the record. -/
theorem geofence_distance_not_stored :
    absen cfg0 empsAll ev800 db0 = absen cfg180 empsAll ev800 db0 ∧
    calculate_distance 0 0 0 0 = 0 ∧
    calculate_distance 0 0 180 0 = Real.pi * 6371000 ∧
    calculate_distance 0 0 0 0 ≠ calculate_distance 0 0 180 0 := by
  have h1 : calculate_distance 0 0 0 0 = 0 := by
    simp [calculate_distance, radians]
  have h2 : calculate_distance 0 0 180 0 = Real.pi * 6371000 := by
    have h180 : radians 180 = Real.pi := by
      rw [radians]
      push_cast
      ring
    have h0 : radians 0 = 0 := by
      simp [radians]
    rw [calculate_distance]
    simp only [h180, h0]
    norm_num
    ring
  refine ⟨rfl, h1, h2, ?_⟩
  rw [h1, h2]
  exact ne_of_lt (by positivity)

/-- Witness for C9 on a concrete event and two concrete company
configurations. -/
theorem geofence_stored_raw_not_blocking_witness :
    absen cfg0 empsAll ev800 db0 = absen cfg180 empsAll ev800 db0 ∧
    (∃ r, (absen cfg0 empsAll ev800 db0).2 1 0 = some r ∧
      r.latitude = some 0 ∧ r.longitude = some 0) := by
  have h := geofence_stored_raw_not_blocking cfg0 cfg180 empsAll ev800 db0 1
    rfl rfl (by decide) rfl
  exact ⟨h.1, h.2 (Or.inl rfl)⟩

/-- C10: the extractor's output always has length 128 with components
120 through 127 equal to zero: the 40 fixed landmark indices
contribute at most 120 coordinates and the tail is zero padding, which
normalisation preserves. -/
theorem embedding_zero_tail (lms : List (ℚ × ℚ × ℚ)) (n : ℚ) (i : Nat)
    (h1 : 120 ≤ i) (h2 : i < 128) :
    (extract_face_embedding lms n).length = 128 ∧
    (extract_face_embedding lms n)[i]? = some 0 := by
  have hraw : (rawEmbedding lms).length ≤ 120 := by
    rw [rawEmbedding, List.length_flatMap]
    set fl := key_indices.filter (fun j => decide (j < lms.length)) with hfl
    have hrep : List.map
        (List.length ∘ fun j =>
          let p := lms.getD j (0, 0, 0)
          [p.1, p.2.1, p.2.2]) fl = List.replicate fl.length 3 := by
      rw [List.eq_replicate_iff]
      refine ⟨by rw [List.length_map], ?_⟩
      intro b hb
      obtain ⟨a, _, ha⟩ := List.mem_map.mp hb
      rw [← ha]
      rfl
    rw [hrep, List.sum_replicate, smul_eq_mul]
    have hfl40 : fl.length ≤ 40 := by
      have h40 : key_indices.length = 40 := rfl
      calc fl.length ≤ key_indices.length := List.length_filter_le _ _
      _ = 40 := h40
    omega
  have hlen : (padTo128 (rawEmbedding lms)).length = 128 := by
    rw [padTo128, if_pos (by omega)]
    rw [List.length_append, List.length_replicate]
    omega
  have hpadget : (padTo128 (rawEmbedding lms))[i]? = some 0 := by
    rw [padTo128, if_pos (by omega)]
    rw [List.getElem?_append_right (by omega)]
    rw [List.getElem?_replicate, if_pos (by omega)]
  constructor
  · rw [extract_face_embedding, normalizeWith]
    split
    · rw [List.length_map]
      exact hlen
    · exact hlen
  · rw [extract_face_embedding, normalizeWith]
    split
    · rw [List.getElem?_map, hpadget]
      simp
    · exact hpadget

/-- Witness for C10 at a concrete landmark list, norm and index. -/
theorem embedding_zero_tail_witness :
    (extract_face_embedding lmsOne 2).length = 128 ∧
    (extract_face_embedding lmsOne 2)[120]? = some 0 := by
  exact embedding_zero_tail lmsOne 2 120 (by norm_num) (by norm_num)
